import Mathlib

/-!
# Verification of the ElevateTM round-resolution engine

Shallow embedding of the round-based economic contest engine of this
repository, in two variants present in the source:

* the maintenance-fee CLI variant (TypeScript prototype: `PlayerState`,
  `GameState`, `calculate_maintenance_fee`, `apply_maintenance_fee`,
  `round_winner`, `apply_payment`, `award_point`, `walkover`, `game_loop`);
* the elevator/socket variant (`server.js`: the action-conflict resolver,
  round analysis, and the `submitBid` / `startRound` socket handlers).

JavaScript numbers are modelled as `Int` (every quantity involved is an
integer in all reachable states); `Math.max(0, x)` becomes `max 0 x`,
`Math.floor(x / n)` on integers becomes `Int.fdiv`.
-/

namespace Elevate

/-! ## Constants (maintenance variant) -/

def STARTING_AMT : Int := 100
def MAINTENANCE_ROUND_INTERVAL : Int := 2
def MAINTENANCE_COST_INCREMENT : Int := 5

/-! ## Data model (maintenance variant) -/

/-- `PlayerState { name, money, score }`; the name plays no role in the
engine's arithmetic, so only `money` and `score` are carried. -/
structure PlayerState where
  money : Int
  score : Int
deriving Repr, DecidableEq

/-- The string `"PLAYER" | "AI"` returned by `round_winner`; `null`
becomes `Option.none` at use sites. -/
inductive Side where
  | PLAYER
  | AI
deriving Repr, DecidableEq

/-- `RoundRecord`: the per-round history entry, fields as in the source. -/
structure RoundRecord where
  round : Int
  player_bid : Int
  ai_bid : Int
  winner : Option Side
  maintenance_fee_of_round : Int
  p_score : Int
  p_money_before_m : Int
  p_money_before_b : Int
  p_money_after_b : Int
  a_score : Int
  a_money_before_m : Int
  a_money_before_b : Int
  a_money_after_b : Int
deriving Repr, DecidableEq

/-- `GameState` of the maintenance variant. -/
structure GameState where
  starting_money : Int
  current_round : Int
  maintenance_fee_current : Int
  player : PlayerState
  ai : PlayerState
  history : List RoundRecord
deriving Repr, DecidableEq

/-! ## Maintenance fee -/

/-- `calculate_maintenance_fee(roundNum)`:
`Math.max(0, Math.floor((roundNum - 1) / MAINTENANCE_ROUND_INTERVAL)) *
MAINTENANCE_COST_INCREMENT`. -/
def calculate_maintenance_fee (roundNum : Int) : Int :=
  max 0 ((roundNum - 1).fdiv MAINTENANCE_ROUND_INTERVAL) *
    MAINTENANCE_COST_INCREMENT

/-- `apply_maintenance_fee(state, player, ai)`: reads the fee from
`state.maintenance_fee_current`; returns `false` and leaves both balances
untouched when either side cannot pay, otherwise deducts the fee from both
and returns `true`.  Modelled as a pure function of the fee and the two
player states, returning `(ok, player, ai)`. -/
def apply_maintenance_fee (fee : Int) (player ai : PlayerState) :
    Bool × PlayerState × PlayerState :=
  if player.money < fee ∨ ai.money < fee then
    (false, player, ai)
  else
    (true, { player with money := player.money - fee },
      { ai with money := ai.money - fee })

/-! ## Auction settlement (maintenance variant) -/

/-- `round_winner(player_bid, ai_bid)`: strictly higher bid wins; an exact
tie returns `null` (no winner). -/
def round_winner (player_bid ai_bid : Int) : Option Side :=
  if player_bid > ai_bid then some Side.PLAYER
  else if ai_bid > player_bid then some Side.AI
  else none

/-- `apply_payment(player, ai, player_bid, ai_bid)`: all-pay — each side's
balance is reduced by its own bid, floored at zero. -/
def apply_payment (player ai : PlayerState) (player_bid ai_bid : Int) :
    PlayerState × PlayerState :=
  ({ player with money := max 0 (player.money - player_bid) },
   { ai with money := max 0 (ai.money - ai_bid) })

/-- `award_point(player, ai, winner)`: the winner (if any) scores one point. -/
def award_point (player ai : PlayerState) (winner : Option Side) :
    PlayerState × PlayerState :=
  match winner with
  | some Side.PLAYER => ({ player with score := player.score + 1 }, ai)
  | some Side.AI => (player, { ai with score := ai.score + 1 })
  | none => (player, ai)

/-- The settlement sequence of `game_loop` once both bids are in:
`round_winner`, then `apply_payment`, then `award_point`. -/
def settle_round (player ai : PlayerState) (p_bid a_bid : Int) :
    Option Side × PlayerState × PlayerState :=
  let winner := round_winner p_bid a_bid
  let paid := apply_payment player ai p_bid a_bid
  let scored := award_point paid.1 paid.2 winner
  (winner, scored.1, scored.2)

/-- The maintenance step of `game_loop` followed (when it succeeds) by the
all-pay deduction of `apply_payment`: the per-round balance pipeline of a
settled round. -/
def maintenance_then_payment (player ai : PlayerState)
    (fee p_bid a_bid : Int) : PlayerState × PlayerState :=
  let r := apply_maintenance_fee fee player ai
  if r.1 then apply_payment r.2.1 r.2.2 p_bid a_bid else (r.2.1, r.2.2)

/-! ## Walkover -/

/-- The `bankrupt` argument of `walkover`: the string
`"PLAYER" | "AI" | "TIE"`. -/
inductive Bankrupt where
  | PLAYER
  | AI
  | TIE
deriving Repr, DecidableEq

/-- One body of `walkover`'s `while (true)` loop, recursing with
decreasing fuel (the source loop terminates when the surviving side can no
longer pay the fee; fuel makes the embedding total — every theorem below
works at a fuel large enough that the loop's exit is reached).  Each
iteration recomputes the fee for `round_num`, and if the surviving side
can afford it, awards it one point, deducts the fee from it, appends a
`RoundRecord` with zero bids, sets `current_round := round_num` and moves
to `round_num + 1`; otherwise it returns. -/
def walkover_go (bankrupt : Bankrupt) : Nat → Int → GameState → GameState
  | 0, _, state => state
  | fuel + 1, round_num, state =>
    if bankrupt = Bankrupt.TIE then state
    else
      let p_money_before_m := state.player.money
      let a_money_before_m := state.ai.money
      let fee := calculate_maintenance_fee round_num
      let state := { state with maintenance_fee_current := fee }
      let cont : Option (Option Side × GameState) :=
        match bankrupt with
        | Bankrupt.PLAYER =>
          if fee ≤ state.ai.money then
            some (some Side.AI,
              { state with
                ai := { score := state.ai.score + 1,
                        money := state.ai.money - fee } })
          else none
        | Bankrupt.AI =>
          if fee ≤ state.player.money then
            some (some Side.PLAYER,
              { state with
                player := { score := state.player.score + 1,
                            money := state.player.money - fee } })
          else none
        | Bankrupt.TIE => none
      match cont with
      | none => state
      | some (winner, state) =>
        let record := RoundRecord.mk
          state.current_round 0 0 winner state.maintenance_fee_current
          state.player.score p_money_before_m state.player.money
          state.player.money
          state.ai.score a_money_before_m state.ai.money state.ai.money
        let state := { state with history := state.history ++ [record] }
        let state := { state with current_round := round_num }
        walkover_go bankrupt fuel (round_num + 1) state

/-- `walkover(bankrupt, state, start_from_next_round)`: starts the
simulated rounds at `current_round + 1` when the flag is set, else at
`current_round`. -/
def walkover (bankrupt : Bankrupt) (state : GameState)
    (start_from_next_round : Bool) (fuel : Nat) : GameState :=
  let round_num :=
    if start_from_next_round then state.current_round + 1
    else state.current_round
  walkover_go bankrupt fuel round_num state

/-- The head of each `game_loop` iteration (lines computing the fee up to
the `if (!ok)` branch): computes and stores the round's fee, applies it,
and on failure dispatches to the tie / player-walkover / ai-walkover
branches after which `game_loop` returns.  Returns `none` when the round
goes on to bidding (fees were paid), and `some finalState` when this is a
terminal branch. -/
def run_elimination (state : GameState) (fuel : Nat) : Option GameState :=
  let p_money_before_m := state.player.money
  let a_money_before_m := state.ai.money
  let m_fee := calculate_maintenance_fee state.current_round
  let state := { state with maintenance_fee_current := m_fee }
  let r := apply_maintenance_fee m_fee state.player state.ai
  let state := { state with player := r.2.1, ai := r.2.2 }
  if r.1 then none
  else if p_money_before_m < m_fee ∧ a_money_before_m < m_fee then
    some state
  else if p_money_before_m < m_fee then
    some (walkover Bankrupt.PLAYER state false fuel)
  else
    some (walkover Bankrupt.AI state false fuel)

/-! ## Elevator variant (`server.js`): action catalog and conflict
resolution -/

/-- The ten keys of `ACTION_COSTS` in the round-based server. -/
inductive ActionType where
  | deferredSummon
  | liquidityLock
  | marketSpoof
  | shortTheFloor
  | earlyCommit
  | lateHijack
  | insuranceProtocol
  | auditShield
  | hostileTakeover
  | collapseTrigger
deriving Repr, DecidableEq

/-- The `ACTION_COSTS` table. -/
def ACTION_COSTS : ActionType → Int
  | ActionType.deferredSummon => 2
  | ActionType.liquidityLock => 2
  | ActionType.marketSpoof => 2
  | ActionType.shortTheFloor => 3
  | ActionType.earlyCommit => 1
  | ActionType.lateHijack => 2
  | ActionType.insuranceProtocol => 2
  | ActionType.auditShield => 1
  | ActionType.hostileTakeover => 4
  | ActionType.collapseTrigger => 3

/-- `userType` of a collected action: the human player or the bot. -/
inductive UserType where
  | player
  | bot
deriving Repr, DecidableEq

/-- The metadata record `resolveAndExecuteActions` builds for each
submitted action: `{ userType, actionType, bidPower, cost, timestamp }`
(the player's entry gets `Date.now()`, the bot's `Date.now() + 1`, so in a
two-action round the player's timestamp is strictly smaller). -/
structure ConflictAction where
  userType : UserType
  actionType : ActionType
  bidPower : Int
  cost : Int
  timestamp : Int
deriving Repr, DecidableEq

/-- The comparator of the generic branch of `resolveActionConflict`:
`bidPower` descending, then `cost` descending, then `timestamp`
ascending.  Returns the JS comparator's sign-carrying integer. -/
def conflictCompare (a b : ConflictAction) : Int :=
  if b.bidPower ≠ a.bidPower then b.bidPower - a.bidPower
  else if b.cost ≠ a.cost then b.cost - a.cost
  else a.timestamp - b.timestamp

/-- `Array.prototype.sort` on a two-element array `[a, b]` swaps exactly
when the comparator is positive; the winner is the head of the result. -/
def sortWinner (cmp : ConflictAction → ConflictAction → Int)
    (a b : ConflictAction) : ConflictAction :=
  if cmp a b > 0 then b else a

/-- The outcome of resolving a same-type conflict: which sides'
actions get executed (in execution order) and which refunds
(`userType`, amount) are credited. -/
structure ConflictOutcome where
  executed : List UserType
  refunds : List (UserType × Int)
deriving Repr, DecidableEq

/-- `resolveActionConflict(actionType, conflictingActions)` for the
two-action case (one player action and one bot action of the same type):
`hostileTakeover` and `marketSpoof` divert to their bespoke resolvers;
otherwise the list is sorted by `conflictCompare`, the head is executed,
and — only for `earlyCommit` — the remaining action is executed as well.
No branch other than the hostile-takeover one credits a refund. -/
def resolveActionConflict (t : ActionType) (a b : ConflictAction) :
    ConflictOutcome :=
  if t = ActionType.hostileTakeover then
    -- sort by bidPower desc; winner executes; each loser is refunded
    -- Math.floor(cost * 0.5)
    let w := sortWinner (fun x y => y.bidPower - x.bidPower) a b
    let l := if w = a then b else a
    { executed := [w.userType],
      refunds := [(l.userType, l.cost.fdiv 2)] }
  else if t = ActionType.marketSpoof then
    let w := sortWinner (fun x y => y.bidPower - x.bidPower) a b
    { executed := [w.userType], refunds := [] }
  else
    let w := sortWinner conflictCompare a b
    let l := if w = a then b else a
    if t = ActionType.earlyCommit then
      { executed := [w.userType, l.userType], refunds := [] }
    else
      { executed := [w.userType], refunds := [] }

/-! ## Elevator variant: round analysis tie resolution -/

/-- The bid-winner computation of `generateRoundAnalysis`: strictly
higher bid wins; an exact tie of positive bids goes to the player
("Your bid was submitted first"); otherwise no winner. -/
def analysis_bidWinner (playerBidAmount botBidAmount : Int) :
    Option UserType :=
  if playerBidAmount > botBidAmount then some UserType.player
  else if botBidAmount > playerBidAmount then some UserType.bot
  else if playerBidAmount = botBidAmount ∧ playerBidAmount > 0 then
    some UserType.player
  else none

/-! ## Elevator variant: socket handlers -/

/-- `gameState.roundPhase` values. -/
inductive Phase where
  | waiting
  | bidding
  | actions
  | processing
deriving Repr, DecidableEq

/-- The slice of `gameState` the `submitBid` / `startRound` handlers read
and write: the phase, the player's stored bid and action, the bot's stored
bid and action, the player's credits and the bid-limit progress counter.
The player's action distinguishes "not yet decided" (`none`) from an
explicit skip (`some none`), as the handlers distinguish `undefined`
from `null`. -/
structure RoundState where
  roundPhase : Phase
  playerBid : Option Int
  playerAction : Option (Option ActionType)
  botBid : Option Int
  botAction : Option (Option ActionType)
  playerCredits : Int
  maxBidReached : Int
deriving Repr, DecidableEq

/-- The progressive bid-limit ladder of the `submitBid` handler. -/
def bidLimitOf (currentMaxBid : Int) : Int :=
  let l : Int := 5
  let l := if currentMaxBid ≥ 5 then 10 else l
  let l := if currentMaxBid ≥ 10 then 15 else l
  let l := if currentMaxBid ≥ 15 then 20 else l
  let l := if currentMaxBid ≥ 20 then 25 else l
  let l := if currentMaxBid ≥ 25 then 30 else l
  let l := if currentMaxBid ≥ 30 then 35 else l
  let l := if currentMaxBid ≥ 35 then 40 else l
  let l := if currentMaxBid ≥ 40 then 45 else l
  if currentMaxBid ≥ 45 then 50 else l

/-- Result of a handler: the state afterwards plus the error message
emitted to the submitter, if any (an `error` emission always `return`s
before any state write). -/
structure HandlerResult where
  state : RoundState
  error : Option String
deriving Repr, DecidableEq

/-- The `submitBid` socket handler (player present and matching the
socket), on an integer `bid`: phase gate, duplicate-bid gate, the
`!bid || bid < 1 || bid > credits` amount check (for an integer, `!bid`
coincides with `bid = 0`, subsumed by `bid < 1`), the progressive bid
limit, then acceptance, which stores the bid and advances the phase to
`actions`. -/
def submitBid (st : RoundState) (bid : Int) : HandlerResult :=
  if st.roundPhase ≠ Phase.bidding ∧ st.roundPhase ≠ Phase.waiting then
    { state := st, error := some "Cannot bid at this time" }
  else if st.playerBid.isSome then
    { state := st, error := some "Bid already submitted for this round" }
  else if bid = 0 ∨ bid < 1 ∨ bid > st.playerCredits then
    { state := st, error := some "Invalid bid amount" }
  else if bid > bidLimitOf st.maxBidReached then
    { state := st, error := some "Bid limit reached" }
  else
    { state := { st with playerBid := some bid,
                         roundPhase := Phase.actions },
      error := none }

/-- The `startRound` socket handler (player present and matching the
socket): in `waiting` it clears the round's ephemeral bids/actions and
opens `bidding`; in `bidding`/`actions` it requires a stored player bid —
absent one it emits "Please submit a bid first" and changes nothing —
and with one it defaults an undecided action to an explicit skip and
moves to `processing`; in `processing` it reports that the round is
already processing. -/
def startRound (st : RoundState) : HandlerResult :=
  if st.roundPhase = Phase.waiting then
    { state := { st with playerBid := none, playerAction := none,
                         botBid := none, botAction := none,
                         roundPhase := Phase.bidding },
      error := none }
  else if st.roundPhase = Phase.bidding ∨ st.roundPhase = Phase.actions then
    if st.playerBid.isNone then
      { state := st, error := some "Please submit a bid first" }
    else
      let st := if st.playerAction.isNone
        then { st with playerAction := some none } else st
      { state := { st with roundPhase := Phase.processing }, error := none }
  else
    { state := st, error := some "Round is already processing" }

/-! ## Win-condition evaluator (unified maintenance engine) -/

/-- Result of the win-condition evaluator. -/
inductive ContestOutcome where
  | continuing
  | winner (s : Side)
  | tie
deriving Repr, DecidableEq

/-- Modelled from the spec: the unified Win-Condition Evaluator of §4.5.
The engine module implementing it (`create_initial_state` / `play_round`
behind `app/api/game/route.ts`) is not among the provided sources; this
definition follows the spec's words: checked in order, (1) either score at
or above the target threshold (20) wins, (2) both balances zero → higher
score wins, equal → tie, (3) exactly one balance zero → the other wins by
walkover, (4) round number at or above the round limit → higher score
wins, equal → tie; otherwise the contest continues. -/
def check_win_conditions (pScore aScore pMoney aMoney roundNum
    roundLimit : Int) : ContestOutcome :=
  if pScore ≥ 20 then ContestOutcome.winner Side.PLAYER
  else if aScore ≥ 20 then ContestOutcome.winner Side.AI
  else if pMoney = 0 ∧ aMoney = 0 then
    (if pScore > aScore then ContestOutcome.winner Side.PLAYER
     else if aScore > pScore then ContestOutcome.winner Side.AI
     else ContestOutcome.tie)
  else if pMoney = 0 then ContestOutcome.winner Side.AI
  else if aMoney = 0 then ContestOutcome.winner Side.PLAYER
  else if roundNum ≥ roundLimit then
    (if pScore > aScore then ContestOutcome.winner Side.PLAYER
     else if aScore > pScore then ContestOutcome.winner Side.AI
     else ContestOutcome.tie)
  else ContestOutcome.continuing

/-! ## Concrete states used in closed evaluations -/

/-- Demonstration state for the walkover branch: round 5, the player is
broke, the ai holds 100. -/
def walkover_demo_state : GameState :=
  { starting_money := 100, current_round := 5, maintenance_fee_current := 0,
    player := { money := 0, score := 3 }, ai := { money := 100, score := 2 },
    history := [] }

/-- A fresh round in `bidding` phase: no submissions yet, the player
holding 50 credits and no bid-limit progress. -/
def fresh_bidding_state : RoundState :=
  { roundPhase := Phase.bidding, playerBid := none, playerAction := none,
    botBid := none, botAction := none, playerCredits := 50,
    maxBidReached := 0 }

/-! ## Helper lemmas -/

/-- The maintenance fee is never negative. -/
theorem calculate_maintenance_fee_nonneg (r : Int) :
    0 ≤ calculate_maintenance_fee r := by
  unfold calculate_maintenance_fee MAINTENANCE_COST_INCREMENT
  exact mul_nonneg (le_max_left 0 _) (by norm_num)

/-- Unfolding `walkover_go` for the player-bankrupt case when the ai can
afford the fee of round `r`: one simulated round is recorded, the ai
scores a point and pays the fee, and the loop moves on to round `r + 1`. -/
theorem walkover_go_player_succ (n : Nat) (r : Int) (st : GameState)
    (h : calculate_maintenance_fee r ≤ st.ai.money) :
    walkover_go Bankrupt.PLAYER (n + 1) r st =
      walkover_go Bankrupt.PLAYER n (r + 1)
        { st with
          current_round := r,
          maintenance_fee_current := calculate_maintenance_fee r,
          ai := { score := st.ai.score + 1,
                  money := st.ai.money - calculate_maintenance_fee r },
          history := st.history ++
            [RoundRecord.mk st.current_round 0 0 (some Side.AI)
              (calculate_maintenance_fee r)
              st.player.score st.player.money st.player.money
              st.player.money
              (st.ai.score + 1) st.ai.money
              (st.ai.money - calculate_maintenance_fee r)
              (st.ai.money - calculate_maintenance_fee r)] } := by
  simp only [walkover_go, if_pos h, reduceCtorEq, if_false]

/-- Unfolding `walkover_go` for the player-bankrupt case when the ai can
no longer afford the fee of round `r`: the loop exits, recording only the
fee it computed. -/
theorem walkover_go_player_stop (n : Nat) (r : Int) (st : GameState)
    (h : st.ai.money < calculate_maintenance_fee r) :
    walkover_go Bankrupt.PLAYER (n + 1) r st =
      { st with maintenance_fee_current := calculate_maintenance_fee r } := by
  simp only [walkover_go, if_neg (by omega : ¬ calculate_maintenance_fee r
      ≤ st.ai.money), reduceCtorEq, if_false]

/-- Over any number of simulated walkover rounds with the player
bankrupt: the ai's score and the history only grow, the ai's balance only
shrinks, and the player's state is never touched. -/
theorem walkover_go_player_mono :
    ∀ (fuel : Nat) (r : Int) (st : GameState),
      st.ai.score ≤ (walkover_go Bankrupt.PLAYER fuel r st).ai.score
      ∧ st.history.length
          ≤ (walkover_go Bankrupt.PLAYER fuel r st).history.length
      ∧ (walkover_go Bankrupt.PLAYER fuel r st).ai.money ≤ st.ai.money
      ∧ (walkover_go Bankrupt.PLAYER fuel r st).player = st.player := by
  intro fuel
  induction fuel with
  | zero => intro r st; simp [walkover_go]
  | succ n ih =>
    intro r st
    by_cases h : calculate_maintenance_fee r ≤ st.ai.money
    · rw [walkover_go_player_succ n r st h]
      have hfee := calculate_maintenance_fee_nonneg r
      obtain ⟨h1, h2, h3, h4⟩ := ih (r + 1)
        { st with
          current_round := r,
          maintenance_fee_current := calculate_maintenance_fee r,
          ai := { score := st.ai.score + 1,
                  money := st.ai.money - calculate_maintenance_fee r },
          history := st.history ++
            [RoundRecord.mk st.current_round 0 0 (some Side.AI)
              (calculate_maintenance_fee r)
              st.player.score st.player.money st.player.money
              st.player.money
              (st.ai.score + 1) st.ai.money
              (st.ai.money - calculate_maintenance_fee r)
              (st.ai.money - calculate_maintenance_fee r)] }
      simp only [List.length_append, List.length_cons, List.length_nil]
        at h1 h2 h3 h4 ⊢
      exact ⟨by omega, by omega, by omega, h4⟩
    · rw [walkover_go_player_stop n r st (by omega)]
      simp

/-- Unfolding `walkover_go` for the ai-bankrupt case when the player can
afford the fee of round `r`. -/
theorem walkover_go_ai_succ (n : Nat) (r : Int) (st : GameState)
    (h : calculate_maintenance_fee r ≤ st.player.money) :
    walkover_go Bankrupt.AI (n + 1) r st =
      walkover_go Bankrupt.AI n (r + 1)
        { st with
          current_round := r,
          maintenance_fee_current := calculate_maintenance_fee r,
          player := { score := st.player.score + 1,
                      money := st.player.money - calculate_maintenance_fee r },
          history := st.history ++
            [RoundRecord.mk st.current_round 0 0 (some Side.PLAYER)
              (calculate_maintenance_fee r)
              (st.player.score + 1) st.player.money
              (st.player.money - calculate_maintenance_fee r)
              (st.player.money - calculate_maintenance_fee r)
              st.ai.score st.ai.money st.ai.money st.ai.money] } := by
  simp only [walkover_go, if_pos h, reduceCtorEq, if_false]

/-- Unfolding `walkover_go` for the ai-bankrupt case when the player can
no longer afford the fee of round `r`. -/
theorem walkover_go_ai_stop (n : Nat) (r : Int) (st : GameState)
    (h : st.player.money < calculate_maintenance_fee r) :
    walkover_go Bankrupt.AI (n + 1) r st =
      { st with maintenance_fee_current := calculate_maintenance_fee r } := by
  simp only [walkover_go, if_neg (by omega : ¬ calculate_maintenance_fee r
      ≤ st.player.money), reduceCtorEq, if_false]

/-- Mirror of `walkover_go_player_mono` for the ai-bankrupt case. -/
theorem walkover_go_ai_mono :
    ∀ (fuel : Nat) (r : Int) (st : GameState),
      st.player.score ≤ (walkover_go Bankrupt.AI fuel r st).player.score
      ∧ st.history.length
          ≤ (walkover_go Bankrupt.AI fuel r st).history.length
      ∧ (walkover_go Bankrupt.AI fuel r st).player.money ≤ st.player.money
      ∧ (walkover_go Bankrupt.AI fuel r st).ai = st.ai := by
  intro fuel
  induction fuel with
  | zero => intro r st; simp [walkover_go]
  | succ n ih =>
    intro r st
    by_cases h : calculate_maintenance_fee r ≤ st.player.money
    · rw [walkover_go_ai_succ n r st h]
      have hfee := calculate_maintenance_fee_nonneg r
      obtain ⟨h1, h2, h3, h4⟩ := ih (r + 1)
        { st with
          current_round := r,
          maintenance_fee_current := calculate_maintenance_fee r,
          player := { score := st.player.score + 1,
                      money := st.player.money
                        - calculate_maintenance_fee r },
          history := st.history ++
            [RoundRecord.mk st.current_round 0 0 (some Side.PLAYER)
              (calculate_maintenance_fee r)
              (st.player.score + 1) st.player.money
              (st.player.money - calculate_maintenance_fee r)
              (st.player.money - calculate_maintenance_fee r)
              st.ai.score st.ai.money st.ai.money st.ai.money] }
      simp only [List.length_append, List.length_cons, List.length_nil]
        at h1 h2 h3 h4 ⊢
      exact ⟨by omega, by omega, by omega, h4⟩
    · rw [walkover_go_ai_stop n r st (by omega)]
      simp

/-- When either side cannot pay, `apply_maintenance_fee` fails and leaves
both untouched. -/
theorem apply_maintenance_fee_eq_of_lt (fee : Int) (p a : PlayerState)
    (h : p.money < fee ∨ a.money < fee) :
    apply_maintenance_fee fee p a = (false, p, a) := by
  unfold apply_maintenance_fee
  rw [if_pos h]

/-- When both sides can afford the fee, `apply_maintenance_fee` succeeds
and deducts it from both. -/
theorem apply_maintenance_fee_eq_of_le (fee : Int) (p a : PlayerState)
    (h1 : fee ≤ p.money) (h2 : fee ≤ a.money) :
    apply_maintenance_fee fee p a =
      (true, { p with money := p.money - fee },
        { a with money := a.money - fee }) := by
  unfold apply_maintenance_fee
  rw [if_neg (by omega)]

end Elevate

namespace Elevate

/-- C3: the maintenance fee is `floor((r - 1) / 2) * 5` for every round
`r ≥ 1` (so in particular the `max 0` guard of the source is inert
there), it is non-decreasing in the round number, and takes the values
`fee(1)=fee(2)=0`, `fee(3)=fee(4)=5`, `fee(5)=fee(6)=10`. -/
theorem C3_maintenance_fee_formula (r s : Int) (h1 : 1 ≤ r) (hrs : r ≤ s) :
    calculate_maintenance_fee r = (r - 1).fdiv 2 * 5
    ∧ calculate_maintenance_fee r ≤ calculate_maintenance_fee s
    ∧ calculate_maintenance_fee 1 = 0
    ∧ calculate_maintenance_fee 2 = 0
    ∧ calculate_maintenance_fee 3 = 5
    ∧ calculate_maintenance_fee 4 = 5
    ∧ calculate_maintenance_fee 5 = 10
    ∧ calculate_maintenance_fee 6 = 10 := by
  refine ⟨?_, ?_, by decide, by decide, by decide, by decide, by decide,
    by decide⟩
  · have hnn : 0 ≤ (r - 1).fdiv 2 :=
      Int.fdiv_nonneg (by omega) (by norm_num)
    unfold calculate_maintenance_fee MAINTENANCE_ROUND_INTERVAL
      MAINTENANCE_COST_INCREMENT
    rw [max_eq_right hnn]
  · unfold calculate_maintenance_fee MAINTENANCE_ROUND_INTERVAL
      MAINTENANCE_COST_INCREMENT
    refine mul_le_mul_of_nonneg_right (max_le_max le_rfl ?_) (by norm_num)
    rw [Int.fdiv_eq_ediv (r - 1) (by norm_num : (0 : Int) ≤ 2),
      Int.fdiv_eq_ediv (s - 1) (by norm_num : (0 : Int) ≤ 2)]
    exact Int.ediv_le_ediv (by norm_num) (by omega)

/-- Witness for C3 at rounds 3 and 7. -/
theorem C3_maintenance_fee_formula_witness :
    calculate_maintenance_fee 3 = (3 - 1 : Int).fdiv 2 * 5
    ∧ calculate_maintenance_fee 3 ≤ calculate_maintenance_fee 7
    ∧ calculate_maintenance_fee 1 = 0
    ∧ calculate_maintenance_fee 2 = 0
    ∧ calculate_maintenance_fee 3 = 5
    ∧ calculate_maintenance_fee 4 = 5
    ∧ calculate_maintenance_fee 5 = 10
    ∧ calculate_maintenance_fee 6 = 10 :=
  C3_maintenance_fee_formula 3 7 (by decide) (by decide)

/-- C10: fee application is atomic — when either contestant's balance is
strictly below the fee it returns `false` and leaves both balances as they
were; otherwise it deducts exactly the fee from each balance and returns
`true`. -/
theorem C10_apply_maintenance_fee_atomic (fee : Int) (p a : PlayerState) :
    (p.money < fee ∨ a.money < fee →
      apply_maintenance_fee fee p a = (false, p, a))
    ∧ (fee ≤ p.money → fee ≤ a.money →
      apply_maintenance_fee fee p a =
        (true, { p with money := p.money - fee },
          { a with money := a.money - fee })) := by
  constructor
  · intro h
    unfold apply_maintenance_fee
    rw [if_pos h]
  · intro h1 h2
    unfold apply_maintenance_fee
    rw [if_neg (by omega)]

/-- Witness for C10: fee 5 against balances 3 and 10 fails atomically;
fee 5 against balances 8 and 10 deducts 5 from each. -/
theorem C10_apply_maintenance_fee_atomic_witness :
    apply_maintenance_fee 5 ⟨3, 0⟩ ⟨10, 0⟩ = (false, ⟨3, 0⟩, ⟨10, 0⟩)
    ∧ apply_maintenance_fee 5 ⟨8, 0⟩ ⟨10, 0⟩ = (true, ⟨3, 0⟩, ⟨5, 0⟩) :=
  ⟨(C10_apply_maintenance_fee_atomic 5 ⟨3, 0⟩ ⟨10, 0⟩).1
      (Or.inl (by decide)),
   (C10_apply_maintenance_fee_atomic 5 ⟨8, 0⟩ ⟨10, 0⟩).2
      (by decide) (by decide)⟩

/-- C1: in a settled round with two submitted bids (each within its
side's balance), the strictly higher bid wins, the winner scores the
round's single point, and both balances are reduced by their own original
bid regardless of who won. -/
theorem C1_settlement (p a : PlayerState) (p_bid a_bid : Int)
    (hp : p_bid ≤ p.money) (ha : a_bid ≤ a.money) :
    (a_bid < p_bid →
      settle_round p a p_bid a_bid =
        (some Side.PLAYER,
          { money := p.money - p_bid, score := p.score + 1 },
          { money := a.money - a_bid, score := a.score }))
    ∧ (p_bid < a_bid →
      settle_round p a p_bid a_bid =
        (some Side.AI,
          { money := p.money - p_bid, score := p.score },
          { money := a.money - a_bid, score := a.score + 1 })) := by
  constructor
  · intro h
    simp only [settle_round, round_winner, apply_payment, award_point,
      if_pos h]
    refine Prod.ext rfl (Prod.ext ?_ ?_) <;>
      simp [PlayerState.mk.injEq] <;> omega
  · intro h
    simp only [settle_round, round_winner, apply_payment, award_point,
      if_neg (by omega : ¬ p_bid > a_bid), if_pos h]
    refine Prod.ext rfl (Prod.ext ?_ ?_) <;>
      simp [PlayerState.mk.injEq] <;> omega

/-- Witness for C1 at the spec's example: bids 10 vs 8 from balances
100 each — PLAYER wins the point, both pay their own bid. -/
theorem C1_settlement_witness :
    settle_round ⟨100, 0⟩ ⟨100, 0⟩ 10 8 =
      (some Side.PLAYER, ⟨90, 1⟩, ⟨92, 0⟩) :=
  (C1_settlement ⟨100, 0⟩ ⟨100, 0⟩ 10 8 (by decide) (by decide)).1
    (by decide)

/-- C6: for a settled round (the fee was affordable to both sides), each
contestant's balance after maintenance and bid payment equals
`max 0 (balanceBefore - bidPaid - feePaid)`, and neither the ledger's fee
deduction nor the all-pay deduction ever produces a negative balance. -/
theorem C6_balance_equation (p a : PlayerState) (fee p_bid a_bid : Int)
    (h1 : fee ≤ p.money) (h2 : fee ≤ a.money) :
    ((maintenance_then_payment p a fee p_bid a_bid).1.money
        = max 0 (p.money - p_bid - fee)
      ∧ (maintenance_then_payment p a fee p_bid a_bid).2.money
        = max 0 (a.money - a_bid - fee))
    ∧ (0 ≤ (maintenance_then_payment p a fee p_bid a_bid).1.money
      ∧ 0 ≤ (maintenance_then_payment p a fee p_bid a_bid).2.money)
    ∧ (0 ≤ (apply_maintenance_fee fee p a).2.1.money
      ∧ 0 ≤ (apply_maintenance_fee fee p a).2.2.money)
    ∧ 0 ≤ (apply_payment p a p_bid a_bid).1.money
    ∧ 0 ≤ (apply_payment p a p_bid a_bid).2.money := by
  have hfee := (apply_maintenance_fee_eq_of_le fee p a h1 h2)
  have hmp : maintenance_then_payment p a fee p_bid a_bid =
      ({ p with money := max 0 (p.money - fee - p_bid) },
       { a with money := max 0 (a.money - fee - a_bid) }) := by
    unfold maintenance_then_payment
    rw [hfee]
    rfl
  refine ⟨⟨?_, ?_⟩, ⟨?_, ?_⟩, ⟨?_, ?_⟩, ?_, ?_⟩ <;>
    simp [hmp, hfee, apply_payment] <;> omega

/-- C2 (amended): when exactly one contestant cannot afford the round's
maintenance fee, the interactive loop does take a terminal branch
(`run_elimination` returns a final state, so no further bidding rounds
are processed) — but the branch is not silent: the `walkover` routine
simulates further maintenance-only rounds, so at least one more round
record is appended, the surviving contestant's score strictly increases
and its balance is further reduced by the fee, while the bankrupt
contestant's state stays untouched. -/
theorem C2_walkover_terminal_but_recording (st : GameState) (n : Nat) :
    (st.player.money < calculate_maintenance_fee st.current_round →
      calculate_maintenance_fee st.current_round ≤ st.ai.money →
      ∃ out, run_elimination st (n + 1) = some out
        ∧ st.ai.score + 1 ≤ out.ai.score
        ∧ st.history.length + 1 ≤ out.history.length
        ∧ out.ai.money ≤ st.ai.money
            - calculate_maintenance_fee st.current_round
        ∧ out.player = st.player)
    ∧ (st.ai.money < calculate_maintenance_fee st.current_round →
      calculate_maintenance_fee st.current_round ≤ st.player.money →
      ∃ out, run_elimination st (n + 1) = some out
        ∧ st.player.score + 1 ≤ out.player.score
        ∧ st.history.length + 1 ≤ out.history.length
        ∧ out.player.money ≤ st.player.money
            - calculate_maintenance_fee st.current_round
        ∧ out.ai = st.ai) := by
  constructor
  · intro h1 h2
    have hrun : run_elimination st (n + 1)
        = some (walkover_go Bankrupt.PLAYER (n + 1) st.current_round
            { st with maintenance_fee_current :=
                calculate_maintenance_fee st.current_round }) := by
      have hnot : ¬ st.ai.money
          < calculate_maintenance_fee st.current_round := by omega
      simp [run_elimination, walkover,
        apply_maintenance_fee_eq_of_lt _ _ _ (Or.inl h1), h1, hnot]
    refine ⟨_, hrun, ?_⟩
    rw [walkover_go_player_succ n st.current_round _ (by simpa using h2)]
    obtain ⟨m1, m2, m3, m4⟩ := walkover_go_player_mono n
      (st.current_round + 1) _
    refine ⟨le_trans (by simp) m1, le_trans (by simp) m2,
      le_trans m3 (by simp), by rw [m4]⟩
  · intro h1 h2
    have hrun : run_elimination st (n + 1)
        = some (walkover_go Bankrupt.AI (n + 1) st.current_round
            { st with maintenance_fee_current :=
                calculate_maintenance_fee st.current_round }) := by
      have hnot : ¬ st.player.money
          < calculate_maintenance_fee st.current_round := by omega
      simp [run_elimination, walkover,
        apply_maintenance_fee_eq_of_lt _ _ _ (Or.inr h1), h1, hnot]
    refine ⟨_, hrun, ?_⟩
    rw [walkover_go_ai_succ n st.current_round _ (by simpa using h2)]
    obtain ⟨m1, m2, m3, m4⟩ := walkover_go_ai_mono n
      (st.current_round + 1) _
    refine ⟨le_trans (by simp) m1, le_trans (by simp) m2,
      le_trans m3 (by simp), by rw [m4]⟩

/-- C2 counterexample: from `walkover_demo_state` (fee of round 5 is 10,
the player cannot pay, the ai can), the walkover branch triggers and is
terminal for the game loop, yet afterwards six further round records have
been appended, the ai's score has risen from 2 to 8 and its balance has
fallen from 100 to 10 — refuting "no further round records, score
changes, or balance changes occur".  The result is fuel-independent
(identical at fuel 100 and 101), so it is the loop's true final state. -/
theorem C2_counterexample :
    walkover_demo_state.ai.score = 2
    ∧ walkover_demo_state.ai.money = 100
    ∧ walkover_demo_state.history.length = 0
    ∧ (run_elimination walkover_demo_state 100).map
        (fun s => (s.ai.score, s.ai.money, s.history.length,
          s.player.money, s.player.score))
      = some (8, 10, 6, 0, 3)
    ∧ run_elimination walkover_demo_state 100
      = run_elimination walkover_demo_state 101 := by
  refine ⟨rfl, rfl, rfl, ?_, ?_⟩ <;> rfl

/-- Witness for C2's amended theorem at `walkover_demo_state`. -/
theorem C2_walkover_terminal_but_recording_witness :
    ∃ out, run_elimination walkover_demo_state (9 + 1) = some out
      ∧ walkover_demo_state.ai.score + 1 ≤ out.ai.score
      ∧ walkover_demo_state.history.length + 1 ≤ out.history.length
      ∧ out.ai.money ≤ walkover_demo_state.ai.money
          - calculate_maintenance_fee walkover_demo_state.current_round
      ∧ out.player = walkover_demo_state.player :=
  (C2_walkover_terminal_but_recording walkover_demo_state 9).1
    (by decide) (by decide)

/-- Witness for C6: balances 100/50, fee 10, bids 95/8 — the player's
post-round balance floors at zero, the ai pays in full. -/
theorem C6_balance_equation_witness :
    ((maintenance_then_payment ⟨100, 0⟩ ⟨50, 0⟩ 10 95 8).1.money
        = max 0 (100 - 95 - 10 : Int)
      ∧ (maintenance_then_payment ⟨100, 0⟩ ⟨50, 0⟩ 10 95 8).2.money
        = max 0 (50 - 8 - 10 : Int))
    ∧ (0 ≤ (maintenance_then_payment ⟨100, 0⟩ ⟨50, 0⟩ 10 95 8).1.money
      ∧ 0 ≤ (maintenance_then_payment ⟨100, 0⟩ ⟨50, 0⟩ 10 95 8).2.money)
    ∧ (0 ≤ (apply_maintenance_fee 10 ⟨100, 0⟩ ⟨50, 0⟩).2.1.money
      ∧ 0 ≤ (apply_maintenance_fee 10 ⟨100, 0⟩ ⟨50, 0⟩).2.2.money)
    ∧ 0 ≤ (apply_payment ⟨100, 0⟩ ⟨50, 0⟩ 95 8).1.money
    ∧ 0 ≤ (apply_payment ⟨100, 0⟩ ⟨50, 0⟩ 95 8).2.money :=
  C6_balance_equation ⟨100, 0⟩ ⟨50, 0⟩ 10 95 8 (by decide) (by decide)

/-- C4 counterexample: both sides invoke Liquidity Lock (a generic,
non-special action type) with bid powers 10 vs 8 — the higher bid wins
and only its action executes, but the loser is credited NO refund: the
refund list is empty, refuting the claimed partial refund for generic
conflicts. -/
theorem C4_counterexample :
    resolveActionConflict ActionType.liquidityLock
        ⟨UserType.player, ActionType.liquidityLock, 10, 2, 0⟩
        ⟨UserType.bot, ActionType.liquidityLock, 8, 2, 1⟩
      = { executed := [UserType.player], refunds := [] } := by
  rfl

/-- C4 (amended): a same-type conflict of a generic (non-special) action
type is resolved by comparing bid power descending, then cost descending,
then timestamp (collection order) ascending; only the winner's action is
executed and the loser receives no refund at all.  The 50% refund of the
loser's action cost exists only in the bespoke Hostile Takeover
resolution. -/
theorem C4_conflict_resolution (t : ActionType) (a b : ConflictAction) :
    (t ≠ ActionType.hostileTakeover → t ≠ ActionType.marketSpoof →
      t ≠ ActionType.earlyCommit → b.bidPower < a.bidPower →
      resolveActionConflict t a b
        = { executed := [a.userType], refunds := [] })
    ∧ (t ≠ ActionType.hostileTakeover → t ≠ ActionType.marketSpoof →
      t ≠ ActionType.earlyCommit → a.bidPower = b.bidPower →
      b.cost < a.cost →
      resolveActionConflict t a b
        = { executed := [a.userType], refunds := [] })
    ∧ (t ≠ ActionType.hostileTakeover → t ≠ ActionType.marketSpoof →
      t ≠ ActionType.earlyCommit → a.bidPower = b.bidPower →
      a.cost = b.cost → a.timestamp < b.timestamp →
      resolveActionConflict t a b
        = { executed := [a.userType], refunds := [] })
    ∧ (b.bidPower < a.bidPower →
      resolveActionConflict ActionType.hostileTakeover a b
        = { executed := [a.userType],
            refunds := [(b.userType, b.cost.fdiv 2)] }) := by
  have hgeneric : ∀ hc : conflictCompare a b ≤ 0,
      ∀ ht : t ≠ ActionType.hostileTakeover,
      ∀ hm : t ≠ ActionType.marketSpoof,
      ∀ he : t ≠ ActionType.earlyCommit,
      resolveActionConflict t a b
        = { executed := [a.userType], refunds := [] } := by
    intro hc ht hm he
    have hw : sortWinner conflictCompare a b = a := by
      unfold sortWinner
      rw [if_neg (by omega : ¬ conflictCompare a b > 0)]
    simp only [resolveActionConflict, if_neg ht, if_neg hm, if_neg he, hw]
  refine ⟨?_, ?_, ?_, ?_⟩
  · intro ht hm he h
    refine hgeneric ?_ ht hm he
    unfold conflictCompare
    split_ifs <;> omega
  · intro ht hm he h1 h2
    refine hgeneric ?_ ht hm he
    unfold conflictCompare
    split_ifs <;> omega
  · intro ht hm he h1 h2 h3
    refine hgeneric ?_ ht hm he
    unfold conflictCompare
    split_ifs <;> omega
  · intro h
    have hw : sortWinner (fun x y => y.bidPower - x.bidPower) a b = a := by
      unfold sortWinner
      rw [if_neg (by omega : ¬ b.bidPower - a.bidPower > 0)]
    simp only [resolveActionConflict, if_pos rfl, hw, if_true]

/-- Witness for C4's amended theorem: Liquidity Lock conflict with bid
powers 10 vs 8 (no refund), and Hostile Takeover conflict with the same
bid powers (loser refunded `floor(4 / 2) = 2`). -/
theorem C4_conflict_resolution_witness :
    resolveActionConflict ActionType.liquidityLock
        ⟨UserType.bot, ActionType.liquidityLock, 10, 2, 1⟩
        ⟨UserType.player, ActionType.liquidityLock, 8, 2, 0⟩
      = { executed := [UserType.bot], refunds := [] }
    ∧ resolveActionConflict ActionType.hostileTakeover
        ⟨UserType.player, ActionType.hostileTakeover, 10, 4, 0⟩
        ⟨UserType.bot, ActionType.hostileTakeover, 8, 4, 1⟩
      = { executed := [UserType.player],
          refunds := [(UserType.bot, (4 : Int).fdiv 2)] } :=
  ⟨(C4_conflict_resolution ActionType.liquidityLock
      ⟨UserType.bot, ActionType.liquidityLock, 10, 2, 1⟩
      ⟨UserType.player, ActionType.liquidityLock, 8, 2, 0⟩).1
      (by decide) (by decide) (by decide) (by decide),
   (C4_conflict_resolution ActionType.hostileTakeover
      ⟨UserType.player, ActionType.hostileTakeover, 10, 4, 0⟩
      ⟨UserType.bot, ActionType.hostileTakeover, 8, 4, 1⟩).2.2.2
      (by decide)⟩

/-- C5 counterexample: at equal positive bids of 5, the elevator round
analysis deterministically awards the tie to the player ("submitted
first"), and the maintenance variant's `round_winner` awards it to nobody
— in neither cited implementation is a tie resolved by a random coin
flip. -/
theorem C5_counterexample :
    analysis_bidWinner 5 5 = some UserType.player
    ∧ round_winner 5 5 = none := by
  exact ⟨rfl, rfl⟩

/-- C5 (amended): ties of equal positive bids are resolved
deterministically — always to the player side in the elevator round
analysis, and to no winner at all (no point awarded) in the maintenance
variant; both resolvers are pure functions of the bids, with no
randomness. -/
theorem C5_tie_deterministic (b : Int) (h : 0 < b) :
    analysis_bidWinner b b = some UserType.player
    ∧ round_winner b b = none := by
  constructor
  · unfold analysis_bidWinner
    rw [if_neg (lt_irrefl b), if_neg (lt_irrefl b),
      if_pos ⟨rfl, h⟩]
  · unfold round_winner
    rw [if_neg (lt_irrefl b), if_neg (lt_irrefl b)]

/-- Witness for C5's amended theorem at bids 5/5. -/
theorem C5_tie_deterministic_witness :
    analysis_bidWinner 5 5 = some UserType.player
    ∧ round_winner (5 : Int) 5 = none :=
  C5_tie_deterministic 5 (by decide)

/-- C7: in the win-condition evaluator, the score-threshold check comes
first: a contestant whose score has reached 20 is declared winner no
matter the balances or the round number — in particular even before the
round limit is reached. -/
theorem C7_score_threshold_first
    (pScore aScore pMoney aMoney roundNum roundLimit : Int) :
    (20 ≤ pScore →
      check_win_conditions pScore aScore pMoney aMoney roundNum roundLimit
        = ContestOutcome.winner Side.PLAYER)
    ∧ (20 ≤ aScore → pScore < 20 →
      check_win_conditions pScore aScore pMoney aMoney roundNum roundLimit
        = ContestOutcome.winner Side.AI) := by
  constructor
  · intro h
    unfold check_win_conditions
    rw [if_pos (by omega : pScore ≥ 20)]
  · intro h1 h2
    unfold check_win_conditions
    rw [if_neg (by omega : ¬ pScore ≥ 20),
      if_pos (by omega : aScore ≥ 20)]

/-- Witness for C7: score 20 at round 3 of a 15-round contest with both
balances positive — immediate win. -/
theorem C7_score_threshold_first_witness :
    check_win_conditions 20 4 50 60 3 15
      = ContestOutcome.winner Side.PLAYER
    ∧ check_win_conditions 4 20 50 60 3 15
      = ContestOutcome.winner Side.AI :=
  ⟨(C7_score_threshold_first 20 4 50 60 3 15).1 (by decide),
   (C7_score_threshold_first 4 20 50 60 3 15).2 (by decide) (by decide)⟩

/-- C8: a confirm-round (`startRound`) request in `bidding` or `actions`
phase while the player has not submitted a bid fails with the explicit
"Please submit a bid first" error, the state is left untouched, and the
phase does not become `processing`. -/
theorem C8_confirm_requires_bid (st : RoundState)
    (hphase : st.roundPhase = Phase.bidding
      ∨ st.roundPhase = Phase.actions)
    (hbid : st.playerBid = none) :
    startRound st = { state := st, error := some "Please submit a bid first" }
    ∧ (startRound st).state.roundPhase ≠ Phase.processing := by
  have hs : startRound st
      = { state := st, error := some "Please submit a bid first" } := by
    unfold startRound
    rw [if_neg (by rcases hphase with h | h <;> simp [h]),
      if_pos hphase, if_pos (by simp [hbid])]
  refine ⟨hs, ?_⟩
  rw [hs]
  rcases hphase with h | h <;> simp [h]

/-- Witness for C8: bidding phase, no bid yet. -/
theorem C8_confirm_requires_bid_witness :
    startRound fresh_bidding_state
      = { state := fresh_bidding_state,
          error := some "Please submit a bid first" }
    ∧ (startRound fresh_bidding_state).state.roundPhase
      ≠ Phase.processing :=
  C8_confirm_requires_bid fresh_bidding_state (Or.inl rfl) rfl

/-- C9 counterexample: in bidding phase with no stored bid, credits 50
and no bid-limit progress, a bid of 7 is an integer within
`[1, balance]` yet is rejected (the progressive bid limit is 5) — so
"accepted iff the amount is between 1 and the balance" fails. -/
theorem C9_counterexample :
    (1 : Int) ≤ 7 ∧ (7 : Int) ≤ 50
    ∧ fresh_bidding_state.playerCredits = 50
    ∧ submitBid fresh_bidding_state 7
      = { state := fresh_bidding_state,
          error := some "Bid limit reached" } := by
  exact ⟨by decide, by decide, rfl, rfl⟩

/-- C9 (amended): in a phase where bidding is allowed and with no bid
stored this round, a bid submission is accepted iff the amount is between
1 and the submitter's balance AND within the progressive bid limit
derived from `maxBidReached`; a rejected submission reports an error and
leaves the state unchanged, and an accepted one stores the bid and moves
the phase to `actions`. -/
theorem C9_bid_validation (st : RoundState) (bid : Int)
    (hphase : st.roundPhase = Phase.bidding
      ∨ st.roundPhase = Phase.waiting)
    (hbid : st.playerBid = none) :
    ((submitBid st bid).error = none ↔
      1 ≤ bid ∧ bid ≤ st.playerCredits
        ∧ bid ≤ bidLimitOf st.maxBidReached)
    ∧ ((submitBid st bid).error ≠ none → (submitBid st bid).state = st)
    ∧ ((submitBid st bid).error = none →
      (submitBid st bid).state
        = { st with playerBid := some bid
                    roundPhase := Phase.actions }) := by
  have hgate : ¬ (st.roundPhase ≠ Phase.bidding
      ∧ st.roundPhase ≠ Phase.waiting) := by
    rcases hphase with h | h <;> simp [h]
  unfold submitBid
  rw [if_neg hgate, if_neg (by simp [hbid])]
  by_cases hv : bid = 0 ∨ bid < 1 ∨ bid > st.playerCredits
  · rw [if_pos hv]
    refine ⟨by simp; omega, fun _ => rfl, by simp⟩
  · rw [if_neg hv]
    by_cases hl : bid > bidLimitOf st.maxBidReached
    · rw [if_pos hl]
      refine ⟨by simp; omega, fun _ => rfl, by simp⟩
    · rw [if_neg hl]
      refine ⟨by simp; omega, by simp, fun _ => rfl⟩

/-- Witness for C9's amended theorem: a bid of 3 against credits 50 and
fresh bid limit 5 is accepted. -/
theorem C9_bid_validation_witness :
    (submitBid fresh_bidding_state 3).error = none :=
  ((C9_bid_validation fresh_bidding_state 3 (Or.inl rfl) rfl).1).mpr
    (by decide)

end Elevate
